import Mathlib

/-!
Verification of the prairie-operator reconciler core
(`controllers/homeagent_controller.go`).

The controller is embedded shallowly: the external resource store is a
record holding the `HomeAgent` object, the `Deployment` object and the pod
collection at the reconciled identity, transient store failures are an
explicit fault assignment per store operation, and `Reconcile` becomes a
pure function from a store and a fault assignment to an outcome, the
resulting store, and the list of mutation calls issued.
-/

namespace Prairie

/-- Tag for a transient (non-not-found) store error, carried unchanged. -/
abbrev StoreErr := Nat

/-- The HomeAgent custom resource: spec size plus the status node-IP list
(`home_agent.Spec.Size`, `home_agent.Status.NodeIps`). -/
structure HomeAgent where
  name : String
  nspace : String
  specSize : Int
  statusNodeIps : List String
deriving DecidableEq

/-- A pod as observed by the controller: its labels and `Status.PodIP`. -/
structure Pod where
  name : String
  labels : List (String × String)
  podIP : String
deriving DecidableEq

/-- The managed Deployment: the fields `CreateDeployment` sets, plus the
observed `Status.ReadyReplicas`. -/
structure Deployment where
  name : String
  nspace : String
  replicas : Int
  selectorMatchLabels : List (String × String)
  templateLabels : List (String × String)
  containerName : String
  containerImage : String
  readyReplicas : Int
deriving DecidableEq

/-- The resource store's contents at the reconciled identity: the
HomeAgent object (if present), the Deployment object (if present), and the
pod collection the `List` call draws from, in store listing order. -/
structure Store where
  homeAgent : Option HomeAgent
  deployment : Option Deployment
  pods : List Pod
deriving DecidableEq

/-- Which store operations of one invocation fail with a transient error.
`none` means the operation behaves normally (success or not-found as the
store contents dictate). -/
structure Faults where
  getAgentErr : Option StoreErr
  getDeployErr : Option StoreErr
  listErr : Option StoreErr
  createErr : Option StoreErr
  updateErr : Option StoreErr
  cleanupGetErr : Option StoreErr
  deleteErr : Option StoreErr
deriving DecidableEq

/-- The fault-free environment: every store operation behaves normally. -/
def noFaults : Faults := ⟨none, none, none, none, none, none, none⟩

/-- The mutation calls issued during one invocation (create, delete, and
status-update calls, each recorded even when the call itself fails). -/
structure Calls where
  creates : List Deployment
  deletes : List Deployment
  statusUpdates : List (List String)
deriving DecidableEq

/-- No mutation calls issued. -/
def noCalls : Calls := ⟨[], [], []⟩

/-- The outcome `Reconcile` hands back to the dispatcher:
`(ctrl.Result{}, nil)` is `done`, `RequeueAfter` is `retryAfter`, a
returned error is `error`, and a Go runtime panic (out-of-range slice
write) is `crash`. -/
inductive Outcome where
  | done
  | retryAfter (ms : Nat)
  | error (e : StoreErr)
  | crash
deriving DecidableEq

/-- `wait_duration`: the fixed requeue delay, 800 milliseconds. -/
def waitDurationMs : Nat := 800

/-- `r.List(ctx, pods, client.MatchingLabels{key: val})`: the pods whose
label map sends `key` to `val`, in store listing order. -/
def listPodsMatching (pods : List Pod) (key val : String) : List Pod :=
  pods.filter (fun p => p.labels.lookup key = some val)

/-- `CreateDeployment`: builds the Deployment from the HomeAgent —
replicas from `Spec.Size`, selector and template labels
`{parent: agent.Name}`, the fixed container template. A fresh object's
observed ready-replica count is zero. -/
def createDeployment (agent : HomeAgent) : Deployment :=
  { name := agent.name
    nspace := agent.nspace
    replicas := agent.specSize
    selectorMatchLabels := [("parent", agent.name)]
    templateLabels := [("parent", agent.name)]
    containerName := "ha"
    containerImage := "kismi/mo-daemon:latest"
    readyReplicas := 0 }

/-- Result of the address-collection loop over the listed pods. -/
inductive CollectResult where
  | ok (buf : List String)
  | retry
  | oob
deriving DecidableEq

/-- The loop `for idx, pod := range pods.Items { ... podips[idx] = ip }`:
walks the listed pods; returns `retry` at the first empty `PodIP`,
`oob` if a write would fall outside the buffer (Go index-out-of-range
panic), else the filled buffer. -/
def collectPodIps : List Pod → Nat → List String → CollectResult
  | [], _, buf => .ok buf
  | p :: rest, idx, buf =>
      if p.podIP = "" then .retry
      else if idx < buf.length then collectPodIps rest (idx + 1) (buf.set idx p.podIP)
      else .oob

/-- `DeleteDeployment`: get the Deployment at the request's identity; on
any get failure (not-found or transient) simply return; otherwise issue
the delete, ignoring its error. Returns the resulting store and calls. -/
def deleteDeployment (s : Store) (f : Faults) : Store × Calls :=
  match f.cleanupGetErr with
  | some _ => (s, noCalls)
  | none =>
      match s.deployment with
      | none => (s, noCalls)
      | some d =>
          match f.deleteErr with
          | some _ => (s, { noCalls with deletes := [d] })
          | none => ({ s with deployment := none }, { noCalls with deletes := [d] })

/-- `Reconcile`: the controller's reconcile function, as a pure function
of the store contents and the invocation's fault assignment. Mirrors
`homeagent_controller.go` branch for branch. -/
def reconcile (s : Store) (f : Faults) : Outcome × Store × Calls :=
  match f.getAgentErr with
  | some e => (.error e, s, noCalls)
  | none =>
      match s.homeAgent with
      | none =>
          let dc := deleteDeployment s f
          (.done, dc.1, dc.2)
      | some ha =>
          match f.getDeployErr with
          | some e => (.error e, s, noCalls)
          | none =>
              match s.deployment with
              | none =>
                  let d := createDeployment ha
                  match f.createErr with
                  | some e => (.error e, s, { noCalls with creates := [d] })
                  | none =>
                      (.retryAfter waitDurationMs, { s with deployment := some d },
                        { noCalls with creates := [d] })
              | some d =>
                  if d.readyReplicas < ha.specSize then
                    (.retryAfter waitDurationMs, s, noCalls)
                  else
                    match f.listErr with
                    | some e => (.error e, s, noCalls)
                    | none =>
                        let pods := listPodsMatching s.pods "parent" ha.name
                        if ha.specSize < 0 then (.crash, s, noCalls)
                        else
                          match collectPodIps pods 0 (List.replicate ha.specSize.toNat "") with
                          | .retry => (.retryAfter waitDurationMs, s, noCalls)
                          | .oob => (.crash, s, noCalls)
                          | .ok podips =>
                              match f.updateErr with
                              | some e =>
                                  (.error e, s, { noCalls with statusUpdates := [podips] })
                              | none =>
                                  (.done,
                                    { s with homeAgent := some { ha with statusNodeIps := podips } },
                                    { noCalls with statusUpdates := [podips] })

/-! ### Helper lemmas about the collection loop -/

/-- Writing at `idx` and then taking `idx + 1` elements yields the
original prefix followed by the written cell. -/
lemma take_succ_set (buf : List String) (idx : Nat) (ip : String) (h : idx < buf.length) :
    (buf.set idx ip).take (idx + 1) = buf.take idx ++ [ip] := by
  rw [List.set_eq_take_cons_drop ip h, List.take_append_eq_append_take, List.take_take,
    List.length_take]
  have h1 : idx ⊓ buf.length = idx := by omega
  have h2 : (idx + 1) ⊓ idx = idx := by omega
  have h3 : idx + 1 - idx = 1 := by omega
  rw [h1, h2, h3]
  simp

/-- Writing at `idx` does not disturb the suffix from any position
strictly beyond `idx`. -/
lemma drop_set_ge (buf : List String) (idx j : Nat) (ip : String) (h : idx < buf.length)
    (hj : idx < j) : (buf.set idx ip).drop j = buf.drop j := by
  rw [List.set_eq_take_cons_drop ip h, List.drop_append_eq_append_drop, List.length_take]
  have h1 : idx ⊓ buf.length = idx := by omega
  rw [h1]
  have h2 : List.drop j (List.take idx buf) = [] :=
    List.drop_eq_nil_of_le (by rw [List.length_take]; omega)
  rw [h2, List.nil_append]
  obtain ⟨k, rfl⟩ : ∃ k, j = idx + 1 + k := ⟨j - idx - 1, by omega⟩
  have h3 : idx + 1 + k - idx = k + 1 := by omega
  rw [h3, List.drop_succ_cons, List.drop_drop]

/-- When every listed pod has a non-empty address and the listed pods fit
into the buffer, the loop succeeds and out come the addresses written at
their list positions, with the rest of the buffer untouched. -/
lemma collectPodIps_ok_of_fits : ∀ (pods : List Pod) (idx : Nat) (buf : List String),
    (∀ p ∈ pods, p.podIP ≠ "") → idx + pods.length ≤ buf.length →
    collectPodIps pods idx buf =
      .ok (buf.take idx ++ pods.map Pod.podIP ++ buf.drop (idx + pods.length))
  | [], idx, buf, _, _ => by
      simp only [collectPodIps, List.map_nil, List.append_nil, List.length_nil, Nat.add_zero]
      rw [List.take_append_drop]
  | p :: rest, idx, buf, hne, hle => by
      have hip : p.podIP ≠ "" := hne p (List.mem_cons_self p rest)
      have hlt : idx < buf.length := by simp only [List.length_cons] at hle; omega
      rw [collectPodIps, if_neg hip, if_pos hlt,
        collectPodIps_ok_of_fits rest (idx + 1) (buf.set idx p.podIP)
          (fun q hq => hne q (List.mem_cons_of_mem p hq))
          (by rw [List.length_set]; simp only [List.length_cons] at hle; omega)]
      rw [take_succ_set buf idx p.podIP hlt,
        drop_set_ge buf idx (idx + 1 + rest.length) p.podIP hlt (by omega)]
      have h4 : idx + (p :: rest).length = idx + 1 + rest.length := by
        simp only [List.length_cons]; omega
      rw [h4]
      simp [List.append_assoc]

/-- The loop never writes out of bounds when the listed pods fit into the
buffer. -/
lemma collectPodIps_ne_oob_of_fits : ∀ (pods : List Pod) (idx : Nat) (buf : List String),
    idx + pods.length ≤ buf.length → collectPodIps pods idx buf ≠ .oob
  | [], _, _, _ => by simp [collectPodIps]
  | p :: rest, idx, buf, hle => by
      have hlt : idx < buf.length := by simp only [List.length_cons] at hle; omega
      rw [collectPodIps]
      by_cases hip : p.podIP = ""
      · simp [hip]
      · rw [if_neg hip, if_pos hlt]
        exact collectPodIps_ne_oob_of_fits rest (idx + 1) (buf.set idx p.podIP)
          (by rw [List.length_set]; simp only [List.length_cons] at hle; omega)

/-- Inversion: a successful run of the loop forces every listed pod to
have a non-empty address, the pods to fit into the buffer, and the result
to be the buffer overwritten at the list positions. -/
lemma collectPodIps_ok_inv : ∀ (pods : List Pod) (idx : Nat) (buf out : List String),
    idx ≤ buf.length → collectPodIps pods idx buf = .ok out →
    (∀ p ∈ pods, p.podIP ≠ "") ∧ idx + pods.length ≤ buf.length ∧
      out = buf.take idx ++ pods.map Pod.podIP ++ buf.drop (idx + pods.length)
  | [], idx, buf, out, hidx, hok => by
      simp only [collectPodIps, CollectResult.ok.injEq] at hok
      refine ⟨by simp, by simpa using hidx, ?_⟩
      simp only [List.map_nil, List.append_nil, List.length_nil, Nat.add_zero]
      rw [List.take_append_drop, hok]
  | p :: rest, idx, buf, out, hidx, hok => by
      rw [collectPodIps] at hok
      by_cases hip : p.podIP = ""
      · rw [if_pos hip] at hok; exact absurd hok (by simp)
      · rw [if_neg hip] at hok
        by_cases hlt : idx < buf.length
        · rw [if_pos hlt] at hok
          obtain ⟨hne, hle, hout⟩ := collectPodIps_ok_inv rest (idx + 1) (buf.set idx p.podIP)
            out (by rw [List.length_set]; omega) hok
          rw [List.length_set] at hle
          refine ⟨?_, by simp only [List.length_cons]; omega, ?_⟩
          · intro q hq
            rcases List.mem_cons.1 hq with rfl | hq
            · exact hip
            · exact hne q hq
          · rw [hout, take_succ_set buf idx p.podIP hlt,
              drop_set_ge buf idx (idx + 1 + rest.length) p.podIP hlt (by omega)]
            have h4 : idx + (p :: rest).length = idx + 1 + rest.length := by
              simp only [List.length_cons]; omega
            rw [h4]
            simp [List.append_assoc]
        · rw [if_neg hlt] at hok; exact absurd hok (by simp)

/-! ### Path lemmas: one equation per branch of `Reconcile` -/

lemma reconcile_agentErr (s : Store) (f : Faults) (e : StoreErr)
    (h : f.getAgentErr = some e) : reconcile s f = (.error e, s, noCalls) := by
  simp [reconcile, h]

lemma reconcile_cleanup (s : Store) (f : Faults)
    (hf : f.getAgentErr = none) (hA : s.homeAgent = none) :
    reconcile s f = (.done, (deleteDeployment s f).1, (deleteDeployment s f).2) := by
  simp [reconcile, hf, hA]

lemma reconcile_deployErr (s : Store) (f : Faults) (ha : HomeAgent) (e : StoreErr)
    (hf : f.getAgentErr = none) (hA : s.homeAgent = some ha)
    (h : f.getDeployErr = some e) : reconcile s f = (.error e, s, noCalls) := by
  simp [reconcile, hf, hA, h]

lemma reconcile_createErr (s : Store) (f : Faults) (ha : HomeAgent) (e : StoreErr)
    (hf : f.getAgentErr = none) (hA : s.homeAgent = some ha)
    (h2 : f.getDeployErr = none) (hD : s.deployment = none)
    (hc : f.createErr = some e) :
    reconcile s f = (.error e, s, { noCalls with creates := [createDeployment ha] }) := by
  simp [reconcile, hf, hA, h2, hD, hc]

lemma reconcile_create (s : Store) (f : Faults) (ha : HomeAgent)
    (hf : f.getAgentErr = none) (hA : s.homeAgent = some ha)
    (h2 : f.getDeployErr = none) (hD : s.deployment = none)
    (hc : f.createErr = none) :
    reconcile s f = (.retryAfter waitDurationMs, { s with deployment := some (createDeployment ha) },
      { noCalls with creates := [createDeployment ha] }) := by
  simp [reconcile, hf, hA, h2, hD, hc]

lemma reconcile_notReady (s : Store) (f : Faults) (ha : HomeAgent) (d : Deployment)
    (hf : f.getAgentErr = none) (hA : s.homeAgent = some ha)
    (h2 : f.getDeployErr = none) (hD : s.deployment = some d)
    (hr : d.readyReplicas < ha.specSize) :
    reconcile s f = (.retryAfter waitDurationMs, s, noCalls) := by
  simp [reconcile, hf, hA, h2, hD, hr]

lemma reconcile_listErr (s : Store) (f : Faults) (ha : HomeAgent) (d : Deployment) (e : StoreErr)
    (hf : f.getAgentErr = none) (hA : s.homeAgent = some ha)
    (h2 : f.getDeployErr = none) (hD : s.deployment = some d)
    (hr : ¬ d.readyReplicas < ha.specSize) (hl : f.listErr = some e) :
    reconcile s f = (.error e, s, noCalls) := by
  simp [reconcile, hf, hA, h2, hD, hr, hl]

lemma reconcile_negSize (s : Store) (f : Faults) (ha : HomeAgent) (d : Deployment)
    (hf : f.getAgentErr = none) (hA : s.homeAgent = some ha)
    (h2 : f.getDeployErr = none) (hD : s.deployment = some d)
    (hr : ¬ d.readyReplicas < ha.specSize) (hl : f.listErr = none)
    (hn : ha.specSize < 0) : reconcile s f = (.crash, s, noCalls) := by
  simp [reconcile, hf, hA, h2, hD, hr, hl, hn]

lemma reconcile_collect_retry (s : Store) (f : Faults) (ha : HomeAgent) (d : Deployment)
    (hf : f.getAgentErr = none) (hA : s.homeAgent = some ha)
    (h2 : f.getDeployErr = none) (hD : s.deployment = some d)
    (hr : ¬ d.readyReplicas < ha.specSize) (hl : f.listErr = none)
    (hn : ¬ ha.specSize < 0)
    (hc : collectPodIps (listPodsMatching s.pods "parent" ha.name) 0
      (List.replicate ha.specSize.toNat "") = .retry) :
    reconcile s f = (.retryAfter waitDurationMs, s, noCalls) := by
  simp [reconcile, hf, hA, h2, hD, hr, hl, hn, hc]

lemma reconcile_collect_oob (s : Store) (f : Faults) (ha : HomeAgent) (d : Deployment)
    (hf : f.getAgentErr = none) (hA : s.homeAgent = some ha)
    (h2 : f.getDeployErr = none) (hD : s.deployment = some d)
    (hr : ¬ d.readyReplicas < ha.specSize) (hl : f.listErr = none)
    (hn : ¬ ha.specSize < 0)
    (hc : collectPodIps (listPodsMatching s.pods "parent" ha.name) 0
      (List.replicate ha.specSize.toNat "") = .oob) :
    reconcile s f = (.crash, s, noCalls) := by
  simp [reconcile, hf, hA, h2, hD, hr, hl, hn, hc]

lemma reconcile_updateErr (s : Store) (f : Faults) (ha : HomeAgent) (d : Deployment)
    (podips : List String) (e : StoreErr)
    (hf : f.getAgentErr = none) (hA : s.homeAgent = some ha)
    (h2 : f.getDeployErr = none) (hD : s.deployment = some d)
    (hr : ¬ d.readyReplicas < ha.specSize) (hl : f.listErr = none)
    (hn : ¬ ha.specSize < 0)
    (hc : collectPodIps (listPodsMatching s.pods "parent" ha.name) 0
      (List.replicate ha.specSize.toNat "") = .ok podips)
    (hu : f.updateErr = some e) :
    reconcile s f = (.error e, s, { noCalls with statusUpdates := [podips] }) := by
  simp [reconcile, hf, hA, h2, hD, hr, hl, hn, hc, hu]

lemma reconcile_update (s : Store) (f : Faults) (ha : HomeAgent) (d : Deployment)
    (podips : List String)
    (hf : f.getAgentErr = none) (hA : s.homeAgent = some ha)
    (h2 : f.getDeployErr = none) (hD : s.deployment = some d)
    (hr : ¬ d.readyReplicas < ha.specSize) (hl : f.listErr = none)
    (hn : ¬ ha.specSize < 0)
    (hc : collectPodIps (listPodsMatching s.pods "parent" ha.name) 0
      (List.replicate ha.specSize.toNat "") = .ok podips)
    (hu : f.updateErr = none) :
    reconcile s f = (.done, { s with homeAgent := some { ha with statusNodeIps := podips } },
      { noCalls with statusUpdates := [podips] }) := by
  simp [reconcile, hf, hA, h2, hD, hr, hl, hn, hc, hu]

/-! ### Claim C4: creation path -/

/-- Claim C4: if the desired-state object exists and the managed-workload
read returns not-found, reconcile issues exactly one create call whose
object has replicaCount equal to the desired size and selector label
`{parent: name}`, and on create success returns a scheduled retry with
delay 800 ms; no status write happens in that invocation. -/
theorem creation_once (s : Store) (ha : HomeAgent)
    (hA : s.homeAgent = some ha) (hD : s.deployment = none) :
    reconcile s noFaults =
      (.retryAfter 800, { s with deployment := some (createDeployment ha) },
        { noCalls with creates := [createDeployment ha] })
    ∧ (createDeployment ha).replicas = ha.specSize
    ∧ (createDeployment ha).selectorMatchLabels = [("parent", ha.name)] :=
  ⟨reconcile_create s noFaults ha rfl hA rfl hD rfl, rfl, rfl⟩

def haW4 : HomeAgent := ⟨"ha-sample", "default", 2, []⟩

def sW4 : Store := ⟨some haW4, none, []⟩

/-- Witness for C4 at a concrete input: desired size 2, no workload. -/
theorem creation_once_witness :
    sW4.homeAgent = some haW4 ∧ sW4.deployment = none ∧
    (reconcile sW4 noFaults =
      (.retryAfter 800, { sW4 with deployment := some (createDeployment haW4) },
        { noCalls with creates := [createDeployment haW4] })
    ∧ (createDeployment haW4).replicas = haW4.specSize
    ∧ (createDeployment haW4).selectorMatchLabels = [("parent", haW4.name)]) :=
  ⟨rfl, rfl, creation_once sW4 haW4 rfl rfl⟩

/-! ### Claim C5: cleanup path -/

/-- Claim C5: if the desired-state read returns not-found, reconcile
deletes the managed workload when its cleanup read finds it, does nothing
when it is absent, and in all cases returns terminal success with no error
and no retry; the cleanup path never surfaces an error. -/
theorem cleanup_never_errors (s : Store) (f : Faults)
    (hA : s.homeAgent = none) (hf : f.getAgentErr = none) :
    (reconcile s f).1 = .done
    ∧ (f.cleanupGetErr = none → ∀ d, s.deployment = some d →
        (reconcile s f).2.2.deletes = [d] ∧
          (f.deleteErr = none → (reconcile s f).2.1.deployment = none))
    ∧ (s.deployment = none → reconcile s f = (.done, s, noCalls)) := by
  rw [reconcile_cleanup s f hf hA]
  refine ⟨rfl, ?_, ?_⟩
  · intro hc d hD
    cases hdel : f.deleteErr <;> simp [deleteDeployment, hc, hD, hdel, noCalls]
  · intro hD
    cases hc : f.cleanupGetErr <;> simp [deleteDeployment, hc, hD]

def dW5 : Deployment := createDeployment ⟨"ha-sample", "default", 2, []⟩

def sW5 : Store := ⟨none, some dW5, []⟩

/-- Witness for C5 at a concrete input: desired-state absent, workload
present; the workload is deleted and the outcome is done. -/
theorem cleanup_never_errors_witness :
    sW5.homeAgent = none ∧
    ((reconcile sW5 noFaults).1 = .done ∧
      (reconcile sW5 noFaults).2.2.deletes = [dW5] ∧
      (reconcile sW5 noFaults).2.1.deployment = none) :=
  have h := cleanup_never_errors sW5 noFaults rfl rfl
  have h2 := h.2.1 rfl dW5 rfl
  ⟨rfl, h.1, h2.1, h2.2 rfl⟩

/-! ### Claim C7: partial readiness is a pure retry -/

/-- Claim C7: if the desired-state object and the managed workload both
exist and the workload's readyReplicaCount is strictly below the desired
size, reconcile returns a scheduled retry of 800 ms and performs no
mutation at all: store unchanged, no create, no delete, no status write. -/
theorem partial_readiness_retries (s : Store) (ha : HomeAgent) (d : Deployment)
    (hA : s.homeAgent = some ha) (hD : s.deployment = some d)
    (hr : d.readyReplicas < ha.specSize) :
    reconcile s noFaults = (.retryAfter 800, s, noCalls) :=
  reconcile_notReady s noFaults ha d rfl hA rfl hD hr

def haW7 : HomeAgent := ⟨"ha-sample", "default", 3, []⟩

def sW7 : Store :=
  ⟨some haW7, some { createDeployment haW7 with readyReplicas := 1 }, []⟩

/-- Witness for C7 at a concrete input: desired size 3, one ready
replica. -/
theorem partial_readiness_retries_witness :
    (1 : Int) < 3 ∧ reconcile sW7 noFaults = (.retryAfter 800, sW7, noCalls) :=
  ⟨by decide, partial_readiness_retries sW7 haW7
    { createDeployment haW7 with readyReplicas := 1 } rfl rfl (by decide)⟩

/-! ### Claim C9: the workload is never modified once found -/

/-- Claim C9: whenever the desired-state object exists and the managed
workload is found, reconcile leaves the workload object exactly as read —
even when its replicaCount diverges from the desired size — and issues no
create or delete call, for every fault assignment. -/
theorem workload_never_modified (s : Store) (f : Faults) (ha : HomeAgent) (d : Deployment)
    (hA : s.homeAgent = some ha) (hD : s.deployment = some d) :
    (reconcile s f).2.1.deployment = some d
    ∧ (reconcile s f).2.2.creates = []
    ∧ (reconcile s f).2.2.deletes = [] := by
  cases hf : f.getAgentErr with
  | some e => rw [reconcile_agentErr s f e hf]; exact ⟨hD, rfl, rfl⟩
  | none =>
    cases h2 : f.getDeployErr with
    | some e => rw [reconcile_deployErr s f ha e hf hA h2]; exact ⟨hD, rfl, rfl⟩
    | none =>
      by_cases hr : d.readyReplicas < ha.specSize
      · rw [reconcile_notReady s f ha d hf hA h2 hD hr]; exact ⟨hD, rfl, rfl⟩
      · cases hl : f.listErr with
        | some e => rw [reconcile_listErr s f ha d e hf hA h2 hD hr hl]; exact ⟨hD, rfl, rfl⟩
        | none =>
          by_cases hn : ha.specSize < 0
          · rw [reconcile_negSize s f ha d hf hA h2 hD hr hl hn]; exact ⟨hD, rfl, rfl⟩
          · cases hc : collectPodIps (listPodsMatching s.pods "parent" ha.name) 0
                (List.replicate ha.specSize.toNat "") with
            | retry =>
                rw [reconcile_collect_retry s f ha d hf hA h2 hD hr hl hn hc]
                exact ⟨hD, rfl, rfl⟩
            | oob =>
                rw [reconcile_collect_oob s f ha d hf hA h2 hD hr hl hn hc]
                exact ⟨hD, rfl, rfl⟩
            | ok podips =>
                cases hu : f.updateErr with
                | some e =>
                    rw [reconcile_updateErr s f ha d podips e hf hA h2 hD hr hl hn hc hu]
                    exact ⟨hD, rfl, rfl⟩
                | none =>
                    rw [reconcile_update s f ha d podips hf hA h2 hD hr hl hn hc hu]
                    exact ⟨hD, rfl, rfl⟩

def haW9 : HomeAgent := ⟨"ha-sample", "default", 5, []⟩

def dW9 : Deployment :=
  { createDeployment ⟨"ha-sample", "default", 2, []⟩ with readyReplicas := 2 }

def sW9 : Store := ⟨some haW9, some dW9, []⟩

/-- Witness for C9 at a concrete input: the desired size was resized to 5
after creation with replicas 2, and the workload is still untouched. -/
theorem workload_never_modified_witness :
    dW9.replicas ≠ haW9.specSize ∧
    ((reconcile sW9 noFaults).2.1.deployment = some dW9
      ∧ (reconcile sW9 noFaults).2.2.creates = []
      ∧ (reconcile sW9 noFaults).2.2.deletes = []) :=
  ⟨by decide, workload_never_modified sW9 noFaults haW9 dW9 rfl rfl⟩

/-! ### Claim C1: convergence -/

/-- Claim C1: for every desired size N ≥ 0, if the desired-state object
exists, the managed workload exists with readyReplicaCount ≥ N, and the
instance list for selector `{parent: name}` returns exactly N instances
each with a non-empty address, then reconcile sets status.nodeAddresses to
exactly those N addresses in store listing order, commits them through the
status-only update path, and returns terminal success with no retry. -/
theorem convergence_writes_addresses (s : Store) (ha : HomeAgent) (d : Deployment) (N : Int)
    (hN : 0 ≤ N) (hsize : ha.specSize = N)
    (hA : s.homeAgent = some ha) (hD : s.deployment = some d)
    (hready : N ≤ d.readyReplicas)
    (hlen : (listPodsMatching s.pods "parent" ha.name).length = N.toNat)
    (hip : ∀ p ∈ listPodsMatching s.pods "parent" ha.name, p.podIP ≠ "") :
    reconcile s noFaults =
      (.done,
        { s with
            homeAgent := some
              { ha with
                  statusNodeIps := (listPodsMatching s.pods "parent" ha.name).map Pod.podIP } },
        { noCalls with
            statusUpdates := [(listPodsMatching s.pods "parent" ha.name).map Pod.podIP] }) := by
  subst hsize
  have hr : ¬ d.readyReplicas < ha.specSize := not_lt.mpr hready
  have hn : ¬ ha.specSize < 0 := not_lt.mpr hN
  have hfit : 0 + (listPodsMatching s.pods "parent" ha.name).length ≤
      (List.replicate ha.specSize.toNat "").length := by
    rw [List.length_replicate, hlen]; omega
  have hc := collectPodIps_ok_of_fits (listPodsMatching s.pods "parent" ha.name) 0
    (List.replicate ha.specSize.toNat "") hip hfit
  simp only [List.take_zero, List.nil_append, Nat.zero_add, hlen, List.drop_replicate,
    Nat.sub_self, List.replicate_zero, List.append_nil] at hc
  exact reconcile_update s noFaults ha d _ rfl hA rfl hD hr rfl hn hc rfl

def haW1 : HomeAgent := ⟨"ha-sample", "default", 2, []⟩

def sW1 : Store :=
  ⟨some haW1, some { createDeployment haW1 with readyReplicas := 2 },
    [⟨"p0", [("parent", "ha-sample")], "2001:db8::1"⟩,
     ⟨"p1", [("parent", "ha-sample")], "2001:db8::2"⟩]⟩

/-- Witness for C1 at a concrete input: size 2, two ready replicas, two
listed instances with addresses; the status becomes those two addresses in
listing order and the outcome is done. -/
theorem convergence_writes_addresses_witness :
    reconcile sW1 noFaults =
      (.done,
        { sW1 with
            homeAgent := some { haW1 with statusNodeIps := ["2001:db8::1", "2001:db8::2"] } },
        { noCalls with statusUpdates := [["2001:db8::1", "2001:db8::2"]] }) := by
  rw [convergence_writes_addresses sW1 haW1 { createDeployment haW1 with readyReplicas := 2 } 2
    (by decide) rfl rfl rfl (by decide) (by decide) (by decide)]
  decide

/-! ### Claim C8: the workload exists iff the desired state exists -/

/-- One reconcile step on the store contents, under a fault assignment. -/
def reconStep (f : Faults) (s : Store) : Store := (reconcile s f).2.1

/-- The store reached after `n` reconcile invocations with the given
per-invocation fault assignments. -/
def reachableStore (fs : Nat → Faults) (s : Store) : Nat → Store
  | 0 => s
  | n + 1 => reconStep (fs n) (reachableStore fs s n)

/-- The existence invariant: the managed workload is present exactly when
the desired-state object is present. -/
@[reducible] def workloadMatchesDesired (s : Store) : Prop :=
  s.homeAgent.isSome = s.deployment.isSome

/-- One reconcile step preserves the existence invariant, under any fault
assignment. -/
lemma workloadMatchesDesired_step (s : Store) (f : Faults)
    (h : workloadMatchesDesired s) : workloadMatchesDesired (reconStep f s) := by
  unfold workloadMatchesDesired at h ⊢
  unfold reconStep
  cases hf : f.getAgentErr with
  | some e => rw [reconcile_agentErr s f e hf]; exact h
  | none =>
    cases hA : s.homeAgent with
    | none =>
      have hD : s.deployment = none := by
        rw [hA] at h
        cases hD : s.deployment with
        | none => rfl
        | some d => rw [hD] at h; simp at h
      rw [reconcile_cleanup s f hf hA]
      cases hc : f.cleanupGetErr <;> simp [deleteDeployment, hc, hD, hA]
    | some ha =>
      cases hD : s.deployment with
      | none => rw [hA, hD] at h; simp at h
      | some d =>
        cases h2 : f.getDeployErr with
        | some e => rw [reconcile_deployErr s f ha e hf hA h2]; exact h
        | none =>
          by_cases hr : d.readyReplicas < ha.specSize
          · rw [reconcile_notReady s f ha d hf hA h2 hD hr]; exact h
          · cases hl : f.listErr with
            | some e => rw [reconcile_listErr s f ha d e hf hA h2 hD hr hl]; exact h
            | none =>
              by_cases hn : ha.specSize < 0
              · rw [reconcile_negSize s f ha d hf hA h2 hD hr hl hn]; exact h
              · cases hc : collectPodIps (listPodsMatching s.pods "parent" ha.name) 0
                    (List.replicate ha.specSize.toNat "") with
                | retry => rw [reconcile_collect_retry s f ha d hf hA h2 hD hr hl hn hc]; exact h
                | oob => rw [reconcile_collect_oob s f ha d hf hA h2 hD hr hl hn hc]; exact h
                | ok podips =>
                  cases hu : f.updateErr with
                  | some e =>
                      rw [reconcile_updateErr s f ha d podips e hf hA h2 hD hr hl hn hc hu]
                      exact h
                  | none =>
                      rw [reconcile_update s f ha d podips hf hA h2 hD hr hl hn hc hu]
                      simp [hD]

/-- Claim C8: in every store reachable by repeatedly applying reconcile
steps (under arbitrary per-step fault assignments) from a state satisfying
the existence invariant, the managed workload exists if and only if the
desired-state object exists. -/
theorem workload_iff_desired_reachable (s0 : Store) (fs : Nat → Faults)
    (h : workloadMatchesDesired s0) :
    ∀ n, workloadMatchesDesired (reachableStore fs s0 n) := by
  intro n
  induction n with
  | zero => exact h
  | succ n ih => exact workloadMatchesDesired_step (reachableStore fs s0 n) (fs n) ih

def haW8 : HomeAgent := ⟨"ha-sample", "default", 1, []⟩

def sW8 : Store :=
  ⟨some haW8, some (createDeployment haW8), [⟨"p0", [("parent", "ha-sample")], ""⟩]⟩

/-- Witness for C8 at a concrete input: a converged pair stays converged
over three fault-free reconcile steps. -/
theorem workload_iff_desired_reachable_witness :
    workloadMatchesDesired sW8 ∧
    workloadMatchesDesired (reachableStore (fun _ => noFaults) sW8 3) :=
  ⟨by decide, workload_iff_desired_reachable sW8 (fun _ => noFaults) (by decide) 3⟩

/-! ### Claim C2: idempotence -/

def haX2 : HomeAgent := ⟨"ha-sample", "default", 1, ["2001:db8::1"]⟩

def sX2 : Store :=
  ⟨some haX2, some { createDeployment haX2 with readyReplicas := 1 },
    [⟨"p0", [("parent", "ha-sample")], "2001:db8::1"⟩]⟩

def haX2b : HomeAgent := ⟨"ha-sample", "default", 0, ["stale"]⟩

def sX2b : Store := ⟨some haX2b, none, []⟩

/-- Counterexample to C2 as stated, at two explicit inputs. First: on a
fully converged store the second invocation leaves the store identical but
still issues a status-update call. Second: after a first invocation that
creates a size-0 workload while the status is stale, the second invocation
changes the store state, overwriting the status with the converged empty
list. -/
theorem idempotence_cex :
    ((reconcile sX2 noFaults).2.1 = sX2
      ∧ (reconcile (reconcile sX2 noFaults).2.1 noFaults).2.2.statusUpdates = [["2001:db8::1"]])
    ∧ ((reconcile sX2b noFaults).2.2.creates = [createDeployment haX2b]
      ∧ (reconcile (reconcile sX2b noFaults).2.1 noFaults).2.1 ≠ (reconcile sX2b noFaults).2.1
      ∧ (reconcile (reconcile sX2b noFaults).2.1 noFaults).2.1.homeAgent =
          some { haX2b with statusNodeIps := [] }) :=
  ⟨⟨by decide, by decide⟩, by decide, by decide, by decide⟩

/-- Claim C2 (amended): with no intervening external change and fault-free
store operations, the second reconcile invocation issues no additional
create or delete call, and it leaves the store state identical — except in
exactly one corner: when the first invocation created the workload for
desired size 0, no instances match the selector, and the status was stale
(non-empty), the second invocation overwrites the status with the
converged empty list. (The converged path also re-issues a status update
writing the identical value.) -/
theorem idempotent_second_invocation (s : Store) :
    (reconcile (reconcile s noFaults).2.1 noFaults).2.2.creates = []
    ∧ (reconcile (reconcile s noFaults).2.1 noFaults).2.2.deletes = []
    ∧ ((reconcile (reconcile s noFaults).2.1 noFaults).2.1 = (reconcile s noFaults).2.1
        ∨ ∃ ha, s.homeAgent = some ha ∧ s.deployment = none ∧ ha.specSize = 0
            ∧ listPodsMatching s.pods "parent" ha.name = []
            ∧ ha.statusNodeIps ≠ []
            ∧ (reconcile (reconcile s noFaults).2.1 noFaults).2.1 =
                { s with
                    deployment := some (createDeployment ha),
                    homeAgent := some { ha with statusNodeIps := [] } }) := by
  cases hA : s.homeAgent with
  | none =>
    have h1 : reconcile s noFaults =
        (.done, (deleteDeployment s noFaults).1, (deleteDeployment s noFaults).2) :=
      reconcile_cleanup s noFaults rfl hA
    cases hD : s.deployment with
    | none =>
      have hdd : deleteDeployment s noFaults = (s, noCalls) := by
        simp [deleteDeployment, noFaults, hD]
      rw [h1, hdd]
      dsimp only
      rw [h1, hdd]
      exact ⟨rfl, rfl, Or.inl rfl⟩
    | some d =>
      have hdd : deleteDeployment s noFaults =
          ({ s with deployment := none }, { noCalls with deletes := [d] }) := by
        simp [deleteDeployment, noFaults, hD]
      rw [h1, hdd]
      dsimp only
      have h2 : reconcile { s with deployment := none } noFaults =
          (.done, (deleteDeployment { s with deployment := none } noFaults).1,
            (deleteDeployment { s with deployment := none } noFaults).2) :=
        reconcile_cleanup _ noFaults rfl hA
      have hdd2 : deleteDeployment { s with deployment := none } noFaults =
          ({ s with deployment := none }, noCalls) := by
        simp [deleteDeployment, noFaults]
      rw [h2, hdd2]
      exact ⟨rfl, rfl, Or.inl rfl⟩
  | some ha =>
    cases hD : s.deployment with
    | none =>
      have h1 := reconcile_create s noFaults ha rfl hA rfl hD rfl
      rw [h1]
      dsimp only
      by_cases hr : (createDeployment ha).readyReplicas < ha.specSize
      · have h2 := reconcile_notReady { s with deployment := some (createDeployment ha) }
          noFaults ha (createDeployment ha) rfl hA rfl rfl hr
        rw [h2]
        exact ⟨rfl, rfl, Or.inl rfl⟩
      · by_cases hn : ha.specSize < 0
        · have h2 := reconcile_negSize { s with deployment := some (createDeployment ha) }
            noFaults ha (createDeployment ha) rfl hA rfl rfl hr rfl hn
          rw [h2]
          exact ⟨rfl, rfl, Or.inl rfl⟩
        · have hr0 : ¬ (0 : Int) < ha.specSize := hr
          have hsize0 : ha.specSize = 0 := by omega
          have hbuf : List.replicate ha.specSize.toNat "" = ([] : List String) := by
            rw [hsize0]; rfl
          cases hc : collectPodIps (listPodsMatching s.pods "parent" ha.name) 0
              (List.replicate ha.specSize.toNat "") with
          | retry =>
              have h2 := reconcile_collect_retry
                { s with deployment := some (createDeployment ha) } noFaults ha
                (createDeployment ha) rfl hA rfl rfl hr rfl hn hc
              rw [h2]
              exact ⟨rfl, rfl, Or.inl rfl⟩
          | oob =>
              have h2 := reconcile_collect_oob
                { s with deployment := some (createDeployment ha) } noFaults ha
                (createDeployment ha) rfl hA rfl rfl hr rfl hn hc
              rw [h2]
              exact ⟨rfl, rfl, Or.inl rfl⟩
          | ok podips =>
              obtain ⟨hne, hle, hout⟩ := collectPodIps_ok_inv
                (listPodsMatching s.pods "parent" ha.name) 0
                (List.replicate ha.specSize.toNat "") podips (Nat.zero_le _) hc
              rw [List.length_replicate] at hle
              have hlen0 : (listPodsMatching s.pods "parent" ha.name).length = 0 := by
                rw [hsize0] at hle; omega
              have hpods : listPodsMatching s.pods "parent" ha.name = [] :=
                List.eq_nil_of_length_eq_zero hlen0
              have hpodips : podips = [] := by
                rw [hout, hpods, hbuf]; rfl
              have h2 := reconcile_update { s with deployment := some (createDeployment ha) }
                noFaults ha (createDeployment ha) podips rfl hA rfl rfl hr rfl hn hc rfl
              rw [h2]
              by_cases h0 : ha.statusNodeIps = []
              · refine ⟨rfl, rfl, Or.inl ?_⟩
                rw [hpodips, hA, ← h0]
              · exact ⟨rfl, rfl, Or.inr ⟨ha, rfl, rfl, hsize0, hpods, h0, by rw [hpodips]⟩⟩
    | some d =>
      by_cases hr : d.readyReplicas < ha.specSize
      · have h1 := reconcile_notReady s noFaults ha d rfl hA rfl hD hr
        rw [h1]; dsimp only; rw [h1]; exact ⟨rfl, rfl, Or.inl rfl⟩
      · by_cases hn : ha.specSize < 0
        · have h1 := reconcile_negSize s noFaults ha d rfl hA rfl hD hr rfl hn
          rw [h1]; dsimp only; rw [h1]; exact ⟨rfl, rfl, Or.inl rfl⟩
        · cases hc : collectPodIps (listPodsMatching s.pods "parent" ha.name) 0
              (List.replicate ha.specSize.toNat "") with
          | retry =>
              have h1 := reconcile_collect_retry s noFaults ha d rfl hA rfl hD hr rfl hn hc
              rw [h1]; dsimp only; rw [h1]; exact ⟨rfl, rfl, Or.inl rfl⟩
          | oob =>
              have h1 := reconcile_collect_oob s noFaults ha d rfl hA rfl hD hr rfl hn hc
              rw [h1]; dsimp only; rw [h1]; exact ⟨rfl, rfl, Or.inl rfl⟩
          | ok podips =>
              have h1 := reconcile_update s noFaults ha d podips rfl hA rfl hD hr rfl hn hc rfl
              rw [h1]
              dsimp only
              have h2 := reconcile_update
                { s with homeAgent := some { ha with statusNodeIps := podips } } noFaults
                { ha with statusNodeIps := podips } d podips rfl rfl rfl hD hr rfl hn hc rfl
              rw [h2]
              exact ⟨rfl, rfl, Or.inl rfl⟩

def haW2 : HomeAgent := ⟨"ha-sample", "default", 2, []⟩

def sW2 : Store := ⟨some haW2, some (createDeployment haW2), []⟩

/-- Witness for the amended C2 at a concrete input: the workload already
exists with zero ready replicas, so the second invocation changes nothing
and issues no create or delete. -/
theorem idempotent_second_invocation_witness :
    (reconcile (reconcile sW2 noFaults).2.1 noFaults).2.2.creates = []
    ∧ (reconcile (reconcile sW2 noFaults).2.1 noFaults).2.2.deletes = []
    ∧ ((reconcile (reconcile sW2 noFaults).2.1 noFaults).2.1 = (reconcile sW2 noFaults).2.1
        ∨ ∃ ha, sW2.homeAgent = some ha ∧ sW2.deployment = none ∧ ha.specSize = 0
            ∧ listPodsMatching sW2.pods "parent" ha.name = []
            ∧ ha.statusNodeIps ≠ []
            ∧ (reconcile (reconcile sW2 noFaults).2.1 noFaults).2.1 =
                { sW2 with
                    deployment := some (createDeployment ha),
                    homeAgent := some { ha with statusNodeIps := [] } }) :=
  idempotent_second_invocation sW2

/-! ### Claim C3: when the status is written -/

def haX3 : HomeAgent := ⟨"ha-sample", "default", 1, []⟩

def sX3 : Store := ⟨some haX3, some { createDeployment haX3 with readyReplicas := 2 }, []⟩

/-- Counterexample to C3 as stated: with desired size 1, ready-replica
count 2 (≠ size) and an empty instance list, the status is still written —
and the written list is the single empty string. -/
theorem status_write_cex :
    sX3.deployment = some { createDeployment haX3 with readyReplicas := 2 }
    ∧ ({ createDeployment haX3 with readyReplicas := 2 }).readyReplicas ≠ haX3.specSize
    ∧ (reconcile sX3 noFaults).2.2.statusUpdates = [[""]]
    ∧ (reconcile sX3 noFaults).2.1.homeAgent = some { haX3 with statusNodeIps := [""] } := by
  refine ⟨rfl, by decide, by decide, by decide⟩

/-- Claim C3 (amended): a status update is issued only when the
desired-state object and workload exist, readyReplicaCount is at least
size (not necessarily equal), size is non-negative, every listed instance
has a non-empty address and at most size instances are listed; the written
list is then the listed addresses in store order padded with empty strings
up to length size (so empty strings are written when fewer than size
instances are listed). In every other case the desired-state object,
status included, is left untouched. -/
theorem status_write_guard (s : Store) (f : Faults) :
    ((reconcile s f).2.2.statusUpdates = [] → (reconcile s f).2.1.homeAgent = s.homeAgent)
    ∧ ∀ podips, (reconcile s f).2.2.statusUpdates = [podips] →
        ∃ ha d, s.homeAgent = some ha ∧ s.deployment = some d
          ∧ ha.specSize ≤ d.readyReplicas ∧ 0 ≤ ha.specSize
          ∧ (∀ p ∈ listPodsMatching s.pods "parent" ha.name, p.podIP ≠ "")
          ∧ (listPodsMatching s.pods "parent" ha.name).length ≤ ha.specSize.toNat
          ∧ podips = (listPodsMatching s.pods "parent" ha.name).map Pod.podIP
              ++ List.replicate
                (ha.specSize.toNat - (listPodsMatching s.pods "parent" ha.name).length) "" := by
  cases hf : f.getAgentErr with
  | some e =>
      rw [reconcile_agentErr s f e hf]
      exact ⟨fun _ => rfl, fun podips hp => by simp [noCalls] at hp⟩
  | none =>
    cases hA : s.homeAgent with
    | none =>
      rw [reconcile_cleanup s f hf hA]
      constructor
      · intro _
        cases hc : f.cleanupGetErr with
        | some e => simp [deleteDeployment, hc, hA]
        | none =>
          cases hD : s.deployment with
          | none => simp [deleteDeployment, hc, hD, hA]
          | some d =>
            cases hdel : f.deleteErr <;> simp [deleteDeployment, hc, hD, hdel, hA]
      · intro podips hp
        exfalso
        cases hc : f.cleanupGetErr with
        | some e => simp [deleteDeployment, hc, noCalls] at hp
        | none =>
          cases hD : s.deployment with
          | none => simp [deleteDeployment, hc, hD, noCalls] at hp
          | some d =>
            cases hdel : f.deleteErr <;>
              simp [deleteDeployment, hc, hD, hdel, noCalls] at hp
    | some ha =>
      cases h2 : f.getDeployErr with
      | some e =>
          rw [reconcile_deployErr s f ha e hf hA h2]
          exact ⟨fun _ => hA, fun podips hp => by simp [noCalls] at hp⟩
      | none =>
        cases hD : s.deployment with
        | none =>
          cases hcr : f.createErr with
          | some e =>
              rw [reconcile_createErr s f ha e hf hA h2 hD hcr]
              exact ⟨fun _ => hA, fun podips hp => by simp [noCalls] at hp⟩
          | none =>
              rw [reconcile_create s f ha hf hA h2 hD hcr]
              exact ⟨fun _ => hA, fun podips hp => by simp [noCalls] at hp⟩
        | some d =>
          by_cases hr : d.readyReplicas < ha.specSize
          · rw [reconcile_notReady s f ha d hf hA h2 hD hr]
            exact ⟨fun _ => hA, fun podips hp => by simp [noCalls] at hp⟩
          · cases hl : f.listErr with
            | some e =>
                rw [reconcile_listErr s f ha d e hf hA h2 hD hr hl]
                exact ⟨fun _ => hA, fun podips hp => by simp [noCalls] at hp⟩
            | none =>
              by_cases hn : ha.specSize < 0
              · rw [reconcile_negSize s f ha d hf hA h2 hD hr hl hn]
                exact ⟨fun _ => hA, fun podips hp => by simp [noCalls] at hp⟩
              · cases hc : collectPodIps (listPodsMatching s.pods "parent" ha.name) 0
                    (List.replicate ha.specSize.toNat "") with
                | retry =>
                    rw [reconcile_collect_retry s f ha d hf hA h2 hD hr hl hn hc]
                    exact ⟨fun _ => hA, fun podips hp => by simp [noCalls] at hp⟩
                | oob =>
                    rw [reconcile_collect_oob s f ha d hf hA h2 hD hr hl hn hc]
                    exact ⟨fun _ => hA, fun podips hp => by simp [noCalls] at hp⟩
                | ok out =>
                    obtain ⟨hne, hle, hout⟩ := collectPodIps_ok_inv
                      (listPodsMatching s.pods "parent" ha.name) 0
                      (List.replicate ha.specSize.toNat "") out (Nat.zero_le _) hc
                    rw [List.length_replicate] at hle
                    simp only [List.take_zero, List.nil_append, Nat.zero_add,
                      List.drop_replicate] at hout
                    cases hu : f.updateErr with
                    | some e =>
                        rw [reconcile_updateErr s f ha d out e hf hA h2 hD hr hl hn hc hu]
                        refine ⟨fun hemp => by simp [noCalls] at hemp, fun podips hp => ?_⟩
                        have hop : out = podips := by simpa [noCalls] using hp
                        exact ⟨ha, d, rfl, rfl, not_lt.mp hr, not_lt.mp hn, hne, by omega,
                          by rw [← hop]; exact hout⟩
                    | none =>
                        rw [reconcile_update s f ha d out hf hA h2 hD hr hl hn hc hu]
                        refine ⟨fun hemp => by simp [noCalls] at hemp, fun podips hp => ?_⟩
                        have hop : out = podips := by simpa [noCalls] using hp
                        exact ⟨ha, d, rfl, rfl, not_lt.mp hr, not_lt.mp hn, hne, by omega,
                          by rw [← hop]; exact hout⟩

def sW3 : Store :=
  ⟨some ⟨"ha-sample", "default", 2, []⟩,
    some { createDeployment ⟨"ha-sample", "default", 2, []⟩ with readyReplicas := 2 },
    [⟨"p0", [("parent", "ha-sample")], "2001:db8::1"⟩]⟩

/-- Witness for the amended C3 at a concrete input: one listed instance
for size 2; the issued status update is characterized as the address
padded with one empty string. -/
theorem status_write_guard_witness :
    ∃ ha d, sW3.homeAgent = some ha ∧ sW3.deployment = some d
      ∧ ha.specSize ≤ d.readyReplicas ∧ 0 ≤ ha.specSize
      ∧ (∀ p ∈ listPodsMatching sW3.pods "parent" ha.name, p.podIP ≠ "")
      ∧ (listPodsMatching sW3.pods "parent" ha.name).length ≤ ha.specSize.toNat
      ∧ ["2001:db8::1", ""] = (listPodsMatching sW3.pods "parent" ha.name).map Pod.podIP
          ++ List.replicate
            (ha.specSize.toNat - (listPodsMatching sW3.pods "parent" ha.name).length) "" :=
  (status_write_guard sW3 noFaults).2 ["2001:db8::1", ""] (by decide)

/-! ### Claim C6: propagation of transient store errors -/

def dX6 : Deployment := createDeployment ⟨"ha-sample", "default", 2, []⟩

def sX6 : Store := ⟨none, some dX6, []⟩

def fX6 : Faults := { noFaults with deleteErr := some 7 }

/-- Counterexample to C6 as stated: during cleanup the delete call fails
with a transient error, yet reconcile returns terminal success — the error
is swallowed, not returned unchanged. -/
theorem transient_error_swallowed_cex :
    (reconcile sX6 fX6).2.2.deletes = [dX6]
    ∧ fX6.deleteErr = some 7
    ∧ (reconcile sX6 fX6).1 = Outcome.done
    ∧ (reconcile sX6 fX6).1 ≠ Outcome.error 7 := by
  refine ⟨by decide, rfl, by decide, by decide⟩

/-- Claim C6 (amended): every transient store failure on the desired-state
read, the workload read, the instance list, the create, or the status
update is returned unchanged to the scheduler; the cleanup path, however,
swallows its workload-read and delete failures. -/
theorem transient_error_propagation (s : Store) (f : Faults) (e : StoreErr) :
    (f.getAgentErr = some e → (reconcile s f).1 = .error e)
    ∧ (∀ ha, f.getAgentErr = none → s.homeAgent = some ha → f.getDeployErr = some e →
        (reconcile s f).1 = .error e)
    ∧ (∀ ha, f.getAgentErr = none → s.homeAgent = some ha → f.getDeployErr = none →
        s.deployment = none → f.createErr = some e → (reconcile s f).1 = .error e)
    ∧ (∀ ha d, f.getAgentErr = none → s.homeAgent = some ha → f.getDeployErr = none →
        s.deployment = some d → ¬ d.readyReplicas < ha.specSize → f.listErr = some e →
        (reconcile s f).1 = .error e)
    ∧ (∀ ha d podips, f.getAgentErr = none → s.homeAgent = some ha → f.getDeployErr = none →
        s.deployment = some d → ¬ d.readyReplicas < ha.specSize → f.listErr = none →
        ¬ ha.specSize < 0 →
        collectPodIps (listPodsMatching s.pods "parent" ha.name) 0
          (List.replicate ha.specSize.toNat "") = .ok podips →
        f.updateErr = some e → (reconcile s f).1 = .error e)
    ∧ (f.getAgentErr = none → s.homeAgent = none → (reconcile s f).1 = .done) := by
  refine ⟨?_, ?_, ?_, ?_, ?_, ?_⟩
  · intro hf; rw [reconcile_agentErr s f e hf]
  · intro ha hf hA h2; rw [reconcile_deployErr s f ha e hf hA h2]
  · intro ha hf hA h2 hD hcr; rw [reconcile_createErr s f ha e hf hA h2 hD hcr]
  · intro ha d hf hA h2 hD hr hl; rw [reconcile_listErr s f ha d e hf hA h2 hD hr hl]
  · intro ha d podips hf hA h2 hD hr hl hn hc hu
    rw [reconcile_updateErr s f ha d podips e hf hA h2 hD hr hl hn hc hu]
  · intro hf hA; rw [reconcile_cleanup s f hf hA]

def sW6 : Store := ⟨some ⟨"ha-sample", "default", 2, []⟩, none, []⟩

def fW6 : Faults := { noFaults with getDeployErr := some 5 }

/-- Witness for the amended C6 at a concrete input: a transient failure of
the workload read is returned unchanged. -/
theorem transient_error_propagation_witness :
    fW6.getDeployErr = some 5 ∧ (reconcile sW6 fW6).1 = Outcome.error 5 :=
  ⟨rfl, (transient_error_propagation sW6 fW6 5).2.1 ⟨"ha-sample", "default", 2, []⟩ rfl rfl rfl⟩

/-! ### Claim C10: bounds of the address buffer writes -/

def haX10 : HomeAgent := ⟨"ha-sample", "default", 0, []⟩

def sX10 : Store :=
  ⟨some haX10, some (createDeployment haX10), [⟨"p0", [("parent", "ha-sample")], "2001:db8::1"⟩]⟩

/-- Counterexample to C10 as stated: with desired size 0 and one listed
instance carrying a non-empty address, the write at index 0 falls outside
the length-0 buffer: reconcile panics rather than staying in bounds. -/
theorem collect_oob_cex :
    haX10.specSize = 0
    ∧ (listPodsMatching sX10.pods "parent" haX10.name).length = 1
    ∧ (reconcile sX10 noFaults).1 = Outcome.crash := by
  refine ⟨rfl, by decide, by decide⟩

/-- Claim C10 (amended): the address-collection loop's index writes stay
within bounds — and reconcile does not panic — whenever the instance list
contains at most size instances; a longer list of addressed instances
drives the write at position size out of bounds. -/
theorem no_oob_when_list_fits (s : Store) (f : Faults) (ha : HomeAgent)
    (hA : s.homeAgent = some ha) (hN : 0 ≤ ha.specSize)
    (hlen : (listPodsMatching s.pods "parent" ha.name).length ≤ ha.specSize.toNat) :
    (reconcile s f).1 ≠ Outcome.crash := by
  cases hf : f.getAgentErr with
  | some e => rw [reconcile_agentErr s f e hf]; simp
  | none =>
    cases h2 : f.getDeployErr with
    | some e => rw [reconcile_deployErr s f ha e hf hA h2]; simp
    | none =>
      cases hD : s.deployment with
      | none =>
        cases hcr : f.createErr with
        | some e => rw [reconcile_createErr s f ha e hf hA h2 hD hcr]; simp
        | none => rw [reconcile_create s f ha hf hA h2 hD hcr]; simp
      | some d =>
        by_cases hr : d.readyReplicas < ha.specSize
        · rw [reconcile_notReady s f ha d hf hA h2 hD hr]; simp
        · cases hl : f.listErr with
          | some e => rw [reconcile_listErr s f ha d e hf hA h2 hD hr hl]; simp
          | none =>
            have hn : ¬ ha.specSize < 0 := not_lt.mpr hN
            cases hc : collectPodIps (listPodsMatching s.pods "parent" ha.name) 0
                (List.replicate ha.specSize.toNat "") with
            | retry => rw [reconcile_collect_retry s f ha d hf hA h2 hD hr hl hn hc]; simp
            | oob =>
                exact absurd hc (collectPodIps_ne_oob_of_fits
                  (listPodsMatching s.pods "parent" ha.name) 0
                  (List.replicate ha.specSize.toNat "")
                  (by rw [List.length_replicate]; omega))
            | ok podips =>
                cases hu : f.updateErr with
                | some e =>
                    rw [reconcile_updateErr s f ha d podips e hf hA h2 hD hr hl hn hc hu]; simp
                | none => rw [reconcile_update s f ha d podips hf hA h2 hD hr hl hn hc hu]; simp

def haW10 : HomeAgent := ⟨"ha-sample", "default", 2, []⟩

def sW10 : Store :=
  ⟨some haW10, some (createDeployment haW10), [⟨"p0", [("parent", "ha-sample")], "2001:db8::1"⟩]⟩

/-- Witness for the amended C10 at a concrete input: one listed instance
for size 2 — no panic. -/
theorem no_oob_when_list_fits_witness :
    (0 : Int) ≤ haW10.specSize
    ∧ (listPodsMatching sW10.pods "parent" haW10.name).length ≤ haW10.specSize.toNat
    ∧ (reconcile sW10 noFaults).1 ≠ Outcome.crash :=
  ⟨by decide, by decide, no_oob_when_list_fits sW10 noFaults haW10 rfl (by decide) (by decide)⟩

end Prairie
